import Mathlib

/-!
Shallow embedding of the Roomiefy messaging service core
(`src/messaging_service/app/main.py`, `db.py`, `schemas.py`).

Rows of the SQLite tables become Lean structures, the database session
becomes an explicit `DB` value threaded through the operations, and each
HTTP / websocket handler becomes a pure function from `DB` to a result
together with the updated `DB`.  Raising an `HTTPException` is modelled
by returning an error without an updated state (the handlers raise
before any mutation, or roll back).
-/

namespace MessagingService

/-- Row of the `conversations` table: integer primary key and a nullable
display name (`db.py`, class `Conversation`). -/
structure Conversation where
  id : Nat
  name : Option String
deriving Repr, DecidableEq

/-- Row of the `conversation_participants` table (`db.py`,
class `ConversationParticipant`). -/
structure ConversationParticipant where
  conversation_id : Nat
  user_id : String
deriving Repr, DecidableEq

/-- Row of the `messages` table (`db.py`, class `Message`).  Timestamps
are abstracted to `Nat`. -/
structure Message where
  id : Nat
  conversation_id : Nat
  sender_id : String
  content : String
  timestamp : Nat
  status : String
  is_read : Bool
deriving Repr, DecidableEq

/-- The persistent store: the three tables plus the id counters the
database assigns to fresh rows, and the clock used for `timestamp`
defaults. -/
structure DB where
  conversations : List Conversation
  participants : List ConversationParticipant
  messages : List Message
  nextConvId : Nat
  nextMsgId : Nat
  now : Nat
deriving Repr, DecidableEq

/-- Error kinds raised by the handlers via `HTTPException`:
400, 404, 403, 422 and 500. -/
inductive Err where
  | badRequest
  | notFound
  | forbidden
  | validation
  | internal
deriving Repr, DecidableEq

/-- Outcome of a handler: a value, or an `HTTPException` (in which case
the session state is unchanged — the handlers raise before mutating, or
roll back). -/
inductive Result (α : Type) where
  | ok (value : α)
  | err (e : Err)
deriving Repr, DecidableEq

/-- Consistency of the store: row ids are below the fresh-id counter and
participant rows reference existing conversations (the foreign key). -/
def DB.wf (db : DB) : Prop :=
  (∀ c ∈ db.conversations, c.id < db.nextConvId) ∧
  (∀ p ∈ db.participants, p.conversation_id < db.nextConvId) ∧
  (∀ p ∈ db.participants, ∃ c ∈ db.conversations, c.id = p.conversation_id)

instance (db : DB) : Decidable db.wf := by
  unfold DB.wf; infer_instance

/-- The fixed catalog of display names (`main.py`, `CHAT_NAMES`). -/
def CHAT_NAMES : List String :=
  ["Karla Rodríguez", "Jorge Méndez", "Diego Fernández", "Sofía Castillo",
   "Valeria Jiménez", "Andrés Navarro", "Mariana Solano", "Luis Pineda",
   "Camila Herrera", "Fernando Rojas", "Laura Chacón", "Daniel Salas",
   "Gabriela Montoya", "Pablo Araya", "Natalia Cordero", "Ricardo Vargas",
   "Alejandra Pacheco", "Sebastián Quesada", "Mónica Zamora", "Javier Aguirre",
   "Paola Segura", "Martín Esquivel", "Lucía Morales", "Cristian Barboza",
   "Andrea Céspedes", "Felipe Marín", "Daniela Campos", "Marco Leiva"]

/-- Name assignment, `main.py` line 259:
`name_index = (conv.id - 1) % len(CHAT_NAMES); conv.name = CHAT_NAMES[name_index]`. -/
def assign (catalog : List String) (id : Nat) : String :=
  catalog.getD ((id - 1) % catalog.length) ""

/-!  The per-room connection registry (`main.py`, class
`ConnectionManager`).  `active_connections : Dict[int, Set[WebSocket]]`
is modelled as an association list from room id to the list of session
handles (sessions are identified by `Nat`); set semantics are captured
by the membership-guarded insert in `connect` and by the `Nodup`
hypotheses of the theorems. -/

abbrev Registry := List (Nat × List Nat)

/-- Sessions currently registered on a room: `active_connections.get(room_id, [])`. -/
def regGet (reg : Registry) (r : Nat) : List Nat :=
  match reg.find? (fun e => e.1 == r) with
  | some e => e.2
  | none => []

/-- `connect`: `self.active_connections.setdefault(room_id, set()).add(websocket)`. -/
def connect (reg : Registry) (r : Nat) (ws : Nat) : Registry :=
  if (reg.find? (fun e => e.1 == r)).isSome then
    reg.map (fun e => if e.1 == r then (e.1, if ws ∈ e.2 then e.2 else e.2 ++ [ws]) else e)
  else
    reg ++ [(r, [ws])]

/-- `disconnect`: remove the session from the room's set when the set
is non-empty and holds it, and drop the room's entry when the set
becomes empty.  (An entry with a key other than the room, or not
holding the session, is untouched.) -/
def disconnect : Registry → Nat → Nat → Registry
  | [], _, _ => []
  | e :: rest, r, ws =>
    if e.1 == r && e.2.contains ws then
      match e.2.erase ws with
      | [] => disconnect rest r ws
      | x :: xs => (e.1, x :: xs) :: disconnect rest r ws
    else e :: disconnect rest r ws

/-- Loop body of `broadcast`: iterate over a snapshot of the room's
sessions; a send that fails disconnects that session, a send that
succeeds records the delivery.  `fails` tells which sessions' sends
raise. -/
def broadcastLoop (fails : Nat → Bool) (r : Nat) :
    List Nat → Registry → List Nat → Registry × List Nat
  | [], reg, delivered => (reg, delivered)
  | ws :: rest, reg, delivered =>
    if fails ws then broadcastLoop fails r rest (disconnect reg r ws) delivered
    else broadcastLoop fails r rest reg (delivered ++ [ws])

/-- `broadcast`: `for ws in list(self.active_connections.get(room_id, [])): try send except: disconnect`.
Returns the registry afterwards and the sessions that received the event. -/
def broadcast (reg : Registry) (r : Nat) (fails : Nat → Bool) : Registry × List Nat :=
  broadcastLoop fails r (regGet reg r) reg []

/-- One registry operation, for stating invariants over operation
sequences. -/
inductive RegistryOp where
  | connectOp (room ws : Nat)
  | disconnectOp (room ws : Nat)
  | broadcastOp (room : Nat) (fails : Nat → Bool)

/-- Apply one registry operation. -/
def applyOp (reg : Registry) : RegistryOp → Registry
  | .connectOp r ws => connect reg r ws
  | .disconnectOp r ws => disconnect reg r ws
  | .broadcastOp r fails => (broadcast reg r fails).1

/-- No room entry holds an empty session set. -/
def noEmpty (reg : Registry) : Prop := ∀ e ∈ reg, e.2 ≠ []

/-!  The REST handlers of `main.py`. -/

/-- User ids of a conversation's participant rows. -/
def membersOf (db : DB) (cid : Nat) : List String :=
  (db.participants.filter (fun p => p.conversation_id == cid)).map
    (fun p => p.user_id)

/-- The dedup subquery of `create_conversation` (`main.py` lines 204-219):
`count(distinct user_id)` over the participant rows of conversation
`cid` whose `user_id` is in `{a, b}`. -/
def matchCount (db : DB) (cid : Nat) (a b : String) : Nat :=
  ((membersOf db cid).filter (fun u => u == a || u == b)).dedup.length

/-- The `existing_conv` lookup: first conversation whose count of
distinct participant ids among `{a, b}` equals 2. -/
def findExisting (db : DB) (a b : String) : Option Conversation :=
  db.conversations.find? (fun c => matchCount db c.id a b == 2)

/-- Handler `POST /conversations` (`main.py`, `create_conversation`):
return the existing conversation when the dedup lookup finds one,
otherwise insert a conversation, its two participant rows
(`participantId` first, then `currentUserId`), the optional initial
message (sent by `currentUserId`, skipped when the payload string is
empty — Python truthiness of the `""` default), and the assigned name. -/
def create_conversation (db : DB) (currentUserId participantId : String)
    (initialMessage : String) : DB × Conversation :=
  match findExisting db currentUserId participantId with
  | some c => (db, c)
  | none =>
    let cid := db.nextConvId
    let parts := db.participants ++
      [⟨cid, participantId⟩, ⟨cid, currentUserId⟩]
    let withMsg :=
      if initialMessage ≠ "" then
        (db.messages ++
          [⟨db.nextMsgId, cid, currentUserId, initialMessage, db.now, "sent", false⟩],
         db.nextMsgId + 1)
      else (db.messages, db.nextMsgId)
    let conv : Conversation := ⟨cid, some (assign CHAT_NAMES cid)⟩
    ({ db with conversations := db.conversations ++ [conv],
               participants := parts,
               messages := withMsg.1,
               nextConvId := cid + 1,
               nextMsgId := withMsg.2 }, conv)

/-- The participant check of `send_message` and
`mark_conversation_read`: is there a participant row for this
conversation and user? -/
def isParticipant (db : DB) (cid : Nat) (uid : String) : Bool :=
  db.participants.any (fun p => p.conversation_id == cid && p.user_id == uid)

/-- Handler `POST /conversations/{id}/messages` (`main.py`,
`send_message`): 403 when the sender has no participant row, otherwise
insert the message with `status="sent"` and the `is_read` column
default `False`.  `MessageCreate` requires `content` to be a string but
places no other constraint on it. -/
def send_message (db : DB) (cid : Nat) (sender content : String) :
    Result (DB × Message) :=
  if ¬ isParticipant db cid sender then .err .forbidden
  else
    let msg : Message := ⟨db.nextMsgId, cid, sender, content, db.now, "sent", false⟩
    .ok ({ db with messages := db.messages ++ [msg],
                   nextMsgId := db.nextMsgId + 1 }, msg)

/-- Does a row of `conversations` carry this id? -/
def conversationExists (db : DB) (cid : Nat) : Bool :=
  db.conversations.any (fun c => c.id == cid)

/-- Rows selected by the bulk update of `mark_conversation_read`
(`main.py` lines 356-359): same conversation, a different sender, and
not yet read. -/
def readQual (cid : Nat) (uid : String) (m : Message) : Bool :=
  m.conversation_id == cid && m.sender_id != uid && m.is_read == false

/-- The body of the `try` block of `mark_conversation_read`
(`main.py` lines 334-382): existence check, participant check, then the
bulk update setting `is_read=True, status='read'` on the qualifying
rows; `update` returns the number of rows changed. -/
def markReadInner (db : DB) (cid : Nat) (uid : String) : Result (DB × Nat) :=
  if ¬ conversationExists db cid then .err .notFound
  else if ¬ isParticipant db cid uid then .err .forbidden
  else
    .ok ({ db with messages := db.messages.map (fun m =>
            if readQual cid uid m then { m with is_read := true, status := "read" }
            else m) },
         (db.messages.filter (readQual cid uid)).length)

/-- Handler `PATCH /conversations/{id}/read` (`main.py`,
`mark_conversation_read`): 400 for a missing user id (checked before
the `try`).  Inside the `try`, the 404/403 `HTTPException`s of
`markReadInner` are caught by the blanket `except Exception` clause,
which rolls back (nothing was mutated) and re-raises them as a 500.
On the success path the bulk update is committed; then, when the count
is positive, the handler runs
`await anyio.from_thread.run(manager.broadcast, ...)` — but this
handler is `async def`, so it executes on the event loop thread, where
`anyio.from_thread.run` raises `RuntimeError` before ever invoking
`manager.broadcast` (the registry is untouched); the blanket `except`
catches it (the rollback after the commit is a no-op) and re-raises a
500.  So a positive committed update is answered with Internal, and
the count reaches the caller only when it is 0.  The handler therefore
returns the store alongside the outcome, because here an error can
leave the store changed. -/
def mark_conversation_read (db : DB) (cid : Nat) (uid : String) :
    DB × Result Nat :=
  if uid == "" then (db, .err .badRequest)
  else
    match markReadInner db cid uid with
    | .err _ => (db, .err .internal)
    | .ok (db2, n) =>
      if n > 0 then (db2, .err .internal) else (db2, .ok n)

/-- Handler `PATCH /messages/{id}/status` (`main.py`,
`update_message_status`): 404 when the message row is absent, otherwise
set `status` unconditionally; `is_read` is not touched. -/
def update_message_status (db : DB) (mid : Nat) (newStatus : String) :
    Result DB :=
  if ¬ db.messages.any (fun m => m.id == mid) then .err .notFound
  else
    .ok { db with messages := db.messages.map (fun m =>
            if m.id == mid then { m with status := newStatus } else m) }

/-- Python truthiness of `data.get(field)`: a missing field yields
`None` (falsy) and an empty string is falsy too. -/
def truthy : Option String → Bool
  | none => false
  | some s => s != ""

/-- Reply of the websocket loop body to one inbound event: the inline
error event, or the persisted message that is then broadcast. -/
inductive WsReply where
  | errorReply
  | broadcasted (msg : Message)
deriving Repr, DecidableEq

/-- One iteration of the websocket receive loop (`main.py`,
`websocket_endpoint`): when `content` or `sender_id` is falsy, send the
inline error event and continue; otherwise persist a message to the
room's conversation (column defaults `status="sent"`, `is_read=False`)
and broadcast it.  No participant check is made. -/
def websocket_handle (db : DB) (room : Nat) (content sender : Option String) :
    DB × WsReply :=
  if ¬ truthy content || ¬ truthy sender then (db, .errorReply)
  else
    let msg : Message :=
      ⟨db.nextMsgId, room, sender.getD "", content.getD "", db.now, "sent", false⟩
    ({ db with messages := db.messages ++ [msg],
               nextMsgId := db.nextMsgId + 1 }, .broadcasted msg)

/-- Per-message invariant claimed by the spec: `isRead == true` iff
`status == read`. -/
def msgInv (m : Message) : Prop := m.is_read = true ↔ m.status = "read"

instance (m : Message) : Decidable (msgInv m) := by
  unfold msgInv; infer_instance

/-- The invariant over every message of the store. -/
def invAll (db : DB) : Prop := ∀ m ∈ db.messages, msgInv m

instance (db : DB) : Decidable (invAll db) := by
  unfold invAll; infer_instance

/-- Position of a status in the lifecycle `sent → delivered → read`
(`db.py` line 45); statuses outside the lifecycle rank lowest, so a
transition into `read` is never a regression. -/
def statusRank : String → Nat
  | "delivered" => 1
  | "read" => 2
  | _ => 0

/-!  General lemmas about the embedded operations. -/

lemma assign_mem (catalog : List String) (id : Nat) (h : 0 < catalog.length) :
    assign catalog id ∈ catalog := by
  unfold assign
  have hlt : (id - 1) % catalog.length < catalog.length := Nat.mod_lt _ h
  rw [List.getD_eq_getElem catalog "" hlt]
  exact List.getElem_mem hlt

lemma assign_congr (catalog : List String) {id1 id2 : Nat}
    (h1 : 0 < id1) (h2 : 0 < id2)
    (h : id1 % catalog.length = id2 % catalog.length) :
    assign catalog id1 = assign catalog id2 := by
  unfold assign
  obtain ⟨a, rfl⟩ := Nat.exists_eq_add_of_le h1
  obtain ⟨b, rfl⟩ := Nat.exists_eq_add_of_le h2
  have ha : 1 + a - 1 = a := by omega
  have hb : 1 + b - 1 = b := by omega
  rw [ha, hb]
  have hmod : a + 1 ≡ b + 1 [MOD catalog.length] := by
    simpa [Nat.ModEq, Nat.add_comm] using h
  rw [Nat.ModEq.add_right_cancel' 1 hmod]

lemma noEmpty_connect {reg : Registry} {r ws : Nat} (h : noEmpty reg) :
    noEmpty (connect reg r ws) := by
  unfold connect
  split
  · intro e he
    obtain ⟨e0, he0, rfl⟩ := List.mem_map.mp he
    by_cases hr : (e0.1 == r) = true
    · simp only [hr, if_true]
      split
      · exact h e0 he0
      · simp
    · simp only [hr]
      simpa using h e0 he0
  · intro e he
    rcases List.mem_append.mp he with h1 | h1
    · exact h e h1
    · simp only [List.mem_singleton] at h1
      subst h1; simp

lemma noEmpty_disconnect {reg : Registry} {r ws : Nat} (h : noEmpty reg) :
    noEmpty (disconnect reg r ws) := by
  induction reg with
  | nil => simpa [disconnect] using h
  | cons e rest ih =>
    have htail : noEmpty (disconnect rest r ws) :=
      ih (fun e1 he1 => h e1 (List.mem_cons_of_mem _ he1))
    unfold disconnect
    by_cases hc : (e.1 == r && e.2.contains ws) = true
    · rw [if_pos hc]
      rcases herase : e.2.erase ws with _ | ⟨x, xs⟩
      · exact htail
      · intro e1 he1
        rcases List.mem_cons.mp he1 with h1 | h1
        · subst h1; simp
        · exact htail e1 h1
    · rw [if_neg hc]
      intro e1 he1
      rcases List.mem_cons.mp he1 with h1 | h1
      · subst h1; exact h _ (List.mem_cons_self _ _)
      · exact htail e1 h1

lemma noEmpty_broadcastLoop {fails : Nat → Bool} {r : Nat} :
    ∀ (L : List Nat) (reg : Registry) (d : List Nat), noEmpty reg →
      noEmpty (broadcastLoop fails r L reg d).1
  | [], reg, d, h => h
  | ws :: rest, reg, d, h => by
    unfold broadcastLoop
    split
    · exact noEmpty_broadcastLoop rest _ d (noEmpty_disconnect h)
    · exact noEmpty_broadcastLoop rest reg _ h

lemma noEmpty_applyOp {reg : Registry} (h : noEmpty reg) (op : RegistryOp) :
    noEmpty (applyOp reg op) := by
  cases op with
  | connectOp r ws => exact noEmpty_connect h
  | disconnectOp r ws => exact noEmpty_disconnect h
  | broadcastOp r fails => exact noEmpty_broadcastLoop _ _ _ h

lemma noEmpty_foldl : ∀ (ops : List RegistryOp) (reg : Registry),
    noEmpty reg → noEmpty (ops.foldl applyOp reg)
  | [], _, h => h
  | op :: rest, reg, h => noEmpty_foldl rest (applyOp reg op) (noEmpty_applyOp h op)

/-- Well-formedness of the registry: room keys are unique (it models a
`Dict`) and each session list has no duplicates (it models a `Set`). -/
def Registry.WF (reg : Registry) : Prop :=
  (reg.map Prod.fst).Nodup ∧ ∀ e ∈ reg, e.2.Nodup

instance (reg : Registry) : Decidable (Registry.WF reg) := by
  unfold Registry.WF; infer_instance

lemma regGet_of_not_mem_keys {reg : Registry} {r : Nat}
    (h : r ∉ reg.map Prod.fst) : regGet reg r = [] := by
  unfold regGet
  have hnone : reg.find? (fun e => e.1 == r) = none := by
    rw [List.find?_eq_none]
    intro e he hbeq
    exact h (List.mem_map.mpr ⟨e, he, by simpa using hbeq⟩)
  rw [hnone]

lemma regGet_cons_pos {e : Nat × List Nat} {rest : Registry} {r : Nat}
    (h : (e.1 == r) = true) : regGet (e :: rest) r = e.2 := by
  simp [regGet, List.find?_cons, h]

lemma regGet_cons_neg {e : Nat × List Nat} {rest : Registry} {r : Nat}
    (h : (e.1 == r) = false) : regGet (e :: rest) r = regGet rest r := by
  simp [regGet, List.find?_cons, h]

lemma keys_disconnect_sublist (reg : Registry) (r ws : Nat) :
    ((disconnect reg r ws).map Prod.fst).Sublist (reg.map Prod.fst) := by
  induction reg with
  | nil => simp [disconnect]
  | cons e rest ih =>
    unfold disconnect
    by_cases hc : (e.1 == r && e.2.contains ws) = true
    · rw [if_pos hc]
      rcases herase : e.2.erase ws with _ | ⟨x, xs⟩
      · simp only [List.map_cons]
        exact ih.cons _
      · simp only [List.map_cons]
        exact ih.cons₂ _
    · rw [if_neg hc]
      simp only [List.map_cons]
      exact ih.cons₂ _

lemma WF_disconnect {reg : Registry} {r ws : Nat} (h : Registry.WF reg) :
    Registry.WF (disconnect reg r ws) := by
  refine ⟨h.1.sublist (keys_disconnect_sublist reg r ws), ?_⟩
  have base := h.2
  clear h
  induction reg with
  | nil => simp [disconnect]
  | cons e rest ih =>
    have htail := ih (fun e1 he1 => base e1 (List.mem_cons_of_mem _ he1))
    unfold disconnect
    by_cases hc : (e.1 == r && e.2.contains ws) = true
    · rw [if_pos hc]
      rcases herase : e.2.erase ws with _ | ⟨x, xs⟩
      · exact htail
      · intro e1 he1
        rcases List.mem_cons.mp he1 with h1 | h1
        · subst h1
          have hnd : (e.2.erase ws).Nodup :=
            (base _ (List.mem_cons_self _ _)).erase ws
          rw [herase] at hnd
          exact hnd
        · exact htail e1 h1
    · rw [if_neg hc]
      intro e1 he1
      rcases List.mem_cons.mp he1 with h1 | h1
      · subst h1; exact base _ (List.mem_cons_self _ _)
      · exact htail e1 h1

lemma regGet_disconnect_self {reg : Registry} {r ws : Nat}
    (h : (reg.map Prod.fst).Nodup) :
    regGet (disconnect reg r ws) r = (regGet reg r).erase ws := by
  induction reg with
  | nil => simp [disconnect, regGet]
  | cons e rest ih =>
    have htail : (rest.map Prod.fst).Nodup := (List.nodup_cons.mp h).2
    by_cases hr : (e.1 == r) = true
    · have hrmem : r ∉ rest.map Prod.fst := by
        have h1 := (List.nodup_cons.mp h).1
        simpa [show e.1 = r from by simpa using hr] using h1
      have hrestd : regGet (disconnect rest r ws) r = [] :=
        regGet_of_not_mem_keys (fun hmem =>
          hrmem ((keys_disconnect_sublist rest r ws).mem hmem))
      unfold disconnect
      by_cases hc : (e.2.contains ws) = true
      · rw [if_pos (by rw [hr, hc]; rfl)]
        rcases herase : e.2.erase ws with _ | ⟨x, xs⟩
        · rw [regGet_cons_pos hr, herase]
          exact hrestd
        · rw [regGet_cons_pos hr, herase]
          show regGet ((e.1, x :: xs) :: disconnect rest r ws) r = x :: xs
          exact regGet_cons_pos hr
      · have hcf : e.2.contains ws = false := by simpa using hc
        have hws : ws ∉ e.2 := by simpa using hcf
        rw [if_neg (by simp [hws])]
        rw [regGet_cons_pos hr, regGet_cons_pos hr,
          List.erase_of_not_mem hws]
    · have hrf : (e.1 == r) = false := by simpa using hr
      unfold disconnect
      rw [if_neg (by rw [hrf]; simp)]
      rw [regGet_cons_neg hrf, regGet_cons_neg hrf]
      exact ih htail

lemma broadcastLoop_spec (fails : Nat → Bool) (r : Nat) :
    ∀ (L : List Nat) (reg : Registry) (d : List Nat), Registry.WF reg →
      (broadcastLoop fails r L reg d).2 = d ++ L.filter (fun ws => !fails ws) ∧
      regGet (broadcastLoop fails r L reg d).1 r =
        (L.filter fails).foldl (fun l w => l.erase w) (regGet reg r) ∧
      Registry.WF (broadcastLoop fails r L reg d).1
  | [], reg, d, h => by simp [broadcastLoop, h]
  | ws :: rest, reg, d, h => by
    unfold broadcastLoop
    by_cases hf : fails ws = true
    · simp only [hf, if_true]
      obtain ⟨h1, h2, h3⟩ :=
        broadcastLoop_spec fails r rest (disconnect reg r ws) d (WF_disconnect h)
      refine ⟨by rw [h1]; simp [hf], ?_, h3⟩
      rw [h2, regGet_disconnect_self h.1]
      simp [hf]
    · simp only [hf, Bool.false_eq_true, if_false]
      obtain ⟨h1, h2, h3⟩ := broadcastLoop_spec fails r rest reg (d ++ [ws]) h
      refine ⟨?_, ?_, h3⟩
      · rw [h1]
        simp [hf]
      · rw [h2]
        simp [hf]

lemma foldl_erase_filter :
    ∀ (S L : List Nat), L.Nodup →
      S.foldl (fun l w => l.erase w) L = L.filter (fun x => !(S.contains x))
  | [], L, _ => by simp
  | w :: S', L, h => by
    rw [List.foldl_cons, foldl_erase_filter S' (L.erase w) (h.erase w),
      h.erase_eq_filter w, List.filter_filter]
    refine List.filter_congr ?_
    intro x _
    by_cases h1 : x = w
    · subst h1
      simp [List.contains_cons]
    · by_cases h2 : x ∈ S' <;>
        simp [List.contains_cons, h1, h2, bne]

lemma regGet_nodup {reg : Registry} {r : Nat} (h : Registry.WF reg) :
    (regGet reg r).Nodup := by
  unfold regGet
  split
  · rename_i e hfind
    exact h.2 e (List.mem_of_find?_eq_some hfind)
  · exact List.nodup_nil

/-!  Claim theorems. -/

/-- C7: name assignment is the pure, deterministic function
`catalog[(conversationId - 1) mod N]` over the fixed catalog
`CHAT_NAMES` of `N > 0` names, total for every positive conversation
id; equal ids yield equal names, and distinct ids congruent mod `N`
yield equal names. -/
theorem C7_assign_modular :
    0 < CHAT_NAMES.length ∧
    (∀ id1 id2 : Nat, 0 < id1 → 0 < id2 →
      id1 % CHAT_NAMES.length = id2 % CHAT_NAMES.length →
      assign CHAT_NAMES id1 = assign CHAT_NAMES id2) ∧
    (∀ id : Nat, 0 < id → assign CHAT_NAMES id ∈ CHAT_NAMES) := by
  refine ⟨by decide, ?_, ?_⟩
  · intro id1 id2 h1 h2 h
    exact assign_congr CHAT_NAMES h1 h2 h
  · intro id _
    exact assign_mem CHAT_NAMES id (by decide)

theorem C7_assign_modular_witness :
    assign CHAT_NAMES 1 = assign CHAT_NAMES 29 :=
  C7_assign_modular.2.1 1 29 (by decide) (by decide) (by decide)

/-- C8: the room-to-sessions registry never contains an entry with an
empty session set: starting from the empty registry of service startup,
every sequence of connect, disconnect and broadcast operations leaves
the registry free of empty entries (a room gains an entry only on its
first registration, and losing the last session removes the entry). -/
theorem C8_no_empty_room_entries :
    ∀ ops : List RegistryOp, noEmpty (ops.foldl applyOp []) := by
  intro ops
  exact noEmpty_foldl ops [] (by intro e he; cases he)

/-- C6: for every `broadcast(roomId, event)` on a well-formed registry,
the sessions that receive the event are exactly those registered on the
room at the moment of the call whose send does not fail; a session
whose send fails is absent from the room's set immediately after the
call, and a failure on one session does not prevent delivery to the
remaining sessions. -/
theorem C6_broadcast_fanout (reg : Registry) (r : Nat) (fails : Nat → Bool)
    (hWF : Registry.WF reg) :
    (broadcast reg r fails).2 = (regGet reg r).filter (fun ws => !fails ws) ∧
    regGet (broadcast reg r fails).1 r =
      (regGet reg r).filter (fun ws => !fails ws) ∧
    (∀ ws ∈ regGet reg r, fails ws = true →
      ws ∉ regGet (broadcast reg r fails).1 r) ∧
    (∀ ws ∈ regGet reg r, fails ws = false →
      ws ∈ (broadcast reg r fails).2) := by
  have hnd : (regGet reg r).Nodup := regGet_nodup hWF
  obtain ⟨h1, h2, _⟩ := broadcastLoop_spec fails r (regGet reg r) reg [] hWF
  have hdel : (broadcast reg r fails).2 =
      (regGet reg r).filter (fun ws => !fails ws) := by
    unfold broadcast
    rw [h1]
    simp
  have hroom : regGet (broadcast reg r fails).1 r =
      (regGet reg r).filter (fun ws => !fails ws) := by
    unfold broadcast
    rw [h2, foldl_erase_filter _ _ hnd]
    refine List.filter_congr ?_
    intro x hx
    have hcx : ((regGet reg r).filter fails).contains x = fails x := by
      rw [Bool.eq_iff_iff]
      simp only [List.elem_iff, List.mem_filter]
      exact ⟨fun hp => hp.2, fun hf => ⟨hx, hf⟩⟩
    rw [hcx]
  refine ⟨hdel, hroom, ?_, ?_⟩
  · intro ws _ hf hmem
    rw [hroom] at hmem
    have := (List.mem_filter.mp hmem).2
    rw [hf] at this
    simp at this
  · intro ws hws hf
    rw [hdel]
    exact List.mem_filter.mpr ⟨hws, by rw [hf]; rfl⟩

theorem C6_broadcast_fanout_witness :
    (broadcast [(1, [10, 11, 12])] 1 (fun s => s == 11)).2 = [10, 12] ∧
    regGet (broadcast [(1, [10, 11, 12])] 1 (fun s => s == 11)).1 1 = [10, 12] := by
  obtain ⟨h1, h2, _, _⟩ :=
    C6_broadcast_fanout [(1, [10, 11, 12])] 1 (fun s => s == 11) (by decide)
  exact ⟨h1.trans (by decide), h2.trans (by decide)⟩

/-- C1 counterexample: a conversation whose participant set is
`{A, B, C}` — a strict superset of `{A, B}` — is returned by the
find-or-create lookup for the pair `(A, B)`, because the dedup query
only counts the distinct members of `{A, B}` present in the
conversation and never checks the conversation's total participant
cardinality.  This refutes "returns an existing conversation only if
that conversation's participant set is exactly `{A, B}`". -/
theorem C1_counterexample_superset :
    create_conversation ⟨[⟨1, some "X"⟩], [⟨1, "A"⟩, ⟨1, "B"⟩, ⟨1, "C"⟩], [], 2, 1, 0⟩
        "A" "B" "" =
      (⟨[⟨1, some "X"⟩], [⟨1, "A"⟩, ⟨1, "B"⟩, ⟨1, "C"⟩], [], 2, 1, 0⟩, ⟨1, some "X"⟩) ∧
    membersOf ⟨[⟨1, some "X"⟩], [⟨1, "A"⟩, ⟨1, "B"⟩, ⟨1, "C"⟩], [], 2, 1, 0⟩ 1 =
      ["A", "B", "C"] := by decide

/-- C2 counterexample: a send with empty content from a participant is
persisted and returned with `status="sent"`, refuting "if the content
is empty it fails with Validation and no message is persisted" — the
code has no content validation (`MessageCreate.content: str` accepts
the empty string). -/
theorem C2_counterexample_empty_content :
    send_message ⟨[⟨1, none⟩], [⟨1, "A"⟩, ⟨1, "B"⟩], [], 2, 1, 0⟩ 1 "A" "" =
      .ok (⟨[⟨1, none⟩], [⟨1, "A"⟩, ⟨1, "B"⟩], [⟨1, 1, "A", "", 0, "sent", false⟩], 2, 2, 0⟩,
        ⟨1, 1, "A", "", 0, "sent", false⟩) := by decide

/-- C4: the `try` body of `mark_conversation_read` correctly detects
the missing conversation (NotFound) and the non-participant reader
(Forbidden) before any mutation — these paths raise before the commit
and the broadcast line — but the handler's blanket `except Exception`
clause catches those very `HTTPException`s and re-raises them as a 500
Internal error, so the caller never receives NotFound or Forbidden;
the store is returned unchanged in both cases. -/
theorem C4_errors_surfaced_as_internal :
    (markReadInner ⟨[⟨1, none⟩], [⟨1, "A"⟩], [], 2, 1, 0⟩ 999 "A" = .err .notFound ∧
     mark_conversation_read ⟨[⟨1, none⟩], [⟨1, "A"⟩], [], 2, 1, 0⟩ 999 "A" =
       (⟨[⟨1, none⟩], [⟨1, "A"⟩], [], 2, 1, 0⟩, .err .internal)) ∧
    (markReadInner ⟨[⟨1, none⟩], [⟨1, "A"⟩], [], 2, 1, 0⟩ 1 "B" = .err .forbidden ∧
     mark_conversation_read ⟨[⟨1, none⟩], [⟨1, "A"⟩], [], 2, 1, 0⟩ 1 "B" =
       (⟨[⟨1, none⟩], [⟨1, "A"⟩], [], 2, 1, 0⟩, .err .internal)) := by decide

/-- C5 counterexample: `update_message_status` (setStatus) is an
unconditional override: applied to a message with
`status="read", isRead=true` and the new status `"sent"`, it yields
`status="sent", isRead=true`, breaking the invariant
`isRead == true iff status == read` and regressing the status from
`read` back to `sent`. -/
theorem C5_counterexample_setStatus :
    update_message_status ⟨[⟨1, none⟩], [], [⟨1, 1, "A", "hi", 0, "read", true⟩], 2, 2, 0⟩
        1 "sent" =
      .ok ⟨[⟨1, none⟩], [], [⟨1, 1, "A", "hi", 0, "sent", true⟩], 2, 2, 0⟩ ∧
    msgInv ⟨1, 1, "A", "hi", 0, "read", true⟩ ∧
    ¬ msgInv ⟨1, 1, "A", "hi", 0, "sent", true⟩ := by decide

/-- C2 (amended): for every send request, if the sender is not a
current participant of the conversation the operation fails with
Forbidden and no message is persisted; otherwise — for any content,
the empty string included, since the code validates only that `content`
is a string — it persists and returns a message with `status="sent"`
and `isRead=false`. -/
theorem C2_send_forbidden_or_persist (db : DB) (cid : Nat)
    (sender content : String) :
    (isParticipant db cid sender = false →
      send_message db cid sender content = .err .forbidden) ∧
    (isParticipant db cid sender = true →
      send_message db cid sender content =
        .ok ({ db with
                messages := db.messages ++
                  [⟨db.nextMsgId, cid, sender, content, db.now, "sent", false⟩],
                nextMsgId := db.nextMsgId + 1 },
             ⟨db.nextMsgId, cid, sender, content, db.now, "sent", false⟩)) := by
  constructor
  · intro h
    simp [send_message, h]
  · intro h
    simp [send_message, h]

theorem C2_send_forbidden_or_persist_witness :
    send_message ⟨[⟨5, none⟩], [⟨5, "A"⟩, ⟨5, "B"⟩], [], 6, 3, 7⟩ 5 "A" "hello" =
      .ok (⟨[⟨5, none⟩], [⟨5, "A"⟩, ⟨5, "B"⟩],
            [⟨3, 5, "A", "hello", 7, "sent", false⟩], 6, 4, 7⟩,
           ⟨3, 5, "A", "hello", 7, "sent", false⟩) :=
  ((C2_send_forbidden_or_persist ⟨[⟨5, none⟩], [⟨5, "A"⟩, ⟨5, "B"⟩], [], 6, 3, 7⟩
      5 "A" "hello").2 (by decide)).trans (by decide)

/-- C9 counterexample: an inbound live-channel event that contains both
fields but with an empty `content` value (`{"content": "", "sender_id":
"A"}`) is answered with the inline error event and nothing is
persisted, because the handler tests Python truthiness
(`if not content or not sender_id`), not field presence. -/
theorem C9_counterexample_empty_field :
    websocket_handle ⟨[⟨1, none⟩], [⟨1, "A"⟩], [], 2, 1, 0⟩ 1 (some "") (some "A") =
      (⟨[⟨1, none⟩], [⟨1, "A"⟩], [], 2, 1, 0⟩, .errorReply) := by decide

/-- C9 (amended): for every inbound live-channel event whose `content`
and `sender_id` fields are both present with truthy (non-empty) values,
the websocket handler persists a message to the room's conversation and
broadcasts it, for an arbitrary store and an arbitrary sender — no
participant check is made and no Forbidden error exists on this path,
unlike the HTTP send operation. -/
theorem C9_ws_persists_without_auth (db : DB) (room : Nat)
    (content sender : String) (hc : content ≠ "") (hs : sender ≠ "") :
    websocket_handle db room (some content) (some sender) =
      ({ db with
          messages := db.messages ++
            [⟨db.nextMsgId, room, sender, content, db.now, "sent", false⟩],
          nextMsgId := db.nextMsgId + 1 },
       .broadcasted ⟨db.nextMsgId, room, sender, content, db.now, "sent", false⟩) := by
  simp [websocket_handle, truthy, hc, hs]

theorem C9_ws_persists_without_auth_witness :
    websocket_handle ⟨[⟨1, none⟩], [⟨1, "A"⟩], [], 2, 1, 0⟩ 1
        (some "hola") (some "Z") =
      (⟨[⟨1, none⟩], [⟨1, "A"⟩], [⟨1, 1, "Z", "hola", 0, "sent", false⟩], 2, 2, 0⟩,
       .broadcasted ⟨1, 1, "Z", "hola", 0, "sent", false⟩) :=
  (C9_ws_persists_without_auth ⟨[⟨1, none⟩], [⟨1, "A"⟩], [], 2, 1, 0⟩ 1
    "hola" "Z" (by decide) (by decide)).trans (by decide)

/-- C10: sending a message to a conversation id that has no row in the
`conversations` table fails with Forbidden (not NotFound): the
participant lookup for a nonexistent conversation finds no row (the
foreign key guarantees participant rows reference existing
conversations), so the 403 branch fires; the error is raised before the
insert, so no message is persisted. -/
theorem C10_missing_conversation_forbidden (db : DB) (cid : Nat)
    (sender content : String) (hwf : db.wf)
    (habs : conversationExists db cid = false) :
    send_message db cid sender content = .err .forbidden := by
  have hnp : isParticipant db cid sender = false := by
    rw [Bool.eq_false_iff]
    intro hp
    obtain ⟨p, hpmem, hpp⟩ := List.any_eq_true.mp hp
    obtain ⟨hcid, _⟩ := (Bool.and_eq_true _ _).mp hpp
    obtain ⟨c, hcmem, hceq⟩ := hwf.2.2 p hpmem
    have hany : db.conversations.any (fun c => c.id == cid) = true :=
      List.any_eq_true.mpr ⟨c, hcmem, by
        simp only [beq_iff_eq] at hcid ⊢
        rw [hceq, hcid]⟩
    rw [conversationExists] at habs
    rw [hany] at habs
    exact Bool.true_eq_false.mp habs
  simp [send_message, hnp]

lemma matchCount_symm (db : DB) (cid : Nat) (a b : String) :
    matchCount db cid a b = matchCount db cid b a := by
  unfold matchCount
  rw [List.filter_congr (fun u _ => Bool.or_comm (u == a) (u == b))]

lemma find_swap_eq {α : Type} (p q : α → Bool) :
    ∀ (l : List α), (∀ x ∈ l, p x = q x) → l.find? p = l.find? q
  | [], _ => rfl
  | x :: xs, h => by
    rw [List.find?_cons, List.find?_cons, h x (List.mem_cons_self _ _),
      find_swap_eq p q xs (fun y hy => h y (List.mem_cons_of_mem _ hy))]

lemma findExisting_symm (db : DB) (a b : String) :
    findExisting db a b = findExisting db b a := by
  unfold findExisting
  exact find_swap_eq _ _ _ (fun c _ => by rw [matchCount_symm])

lemma findExisting_mem_both {db : DB} {a b : String} {c : Conversation}
    (h : findExisting db a b = some c) :
    a ∈ membersOf db c.id ∧ b ∈ membersOf db c.id := by
  have hp := List.find?_some h
  have h2 : matchCount db c.id a b = 2 := by simpa using hp
  unfold matchCount at h2
  obtain ⟨x, y, hxy⟩ := List.length_eq_two.mp h2
  have hnd := List.nodup_dedup ((membersOf db c.id).filter (fun u => u == a || u == b))
  rw [hxy] at hnd
  have hxyne : x ≠ y := by
    intro hxx
    subst hxx
    simp at hnd
  have hx : x ∈ ((membersOf db c.id).filter (fun u => u == a || u == b)).dedup := by
    rw [hxy]; exact List.mem_cons_self _ _
  have hy : y ∈ ((membersOf db c.id).filter (fun u => u == a || u == b)).dedup := by
    rw [hxy]; exact List.mem_cons_of_mem _ (List.mem_cons_self _ _)
  have hxf := List.mem_dedup.mp hx
  have hyf := List.mem_dedup.mp hy
  have hxab : x = a ∨ x = b := by simpa using (List.mem_filter.mp hxf).2
  have hyab : y = a ∨ y = b := by simpa using (List.mem_filter.mp hyf).2
  have hxl : x ∈ membersOf db c.id := List.mem_of_mem_filter hxf
  have hyl : y ∈ membersOf db c.id := List.mem_of_mem_filter hyf
  rcases hxab with rfl | rfl <;> rcases hyab with rfl | rfl
  · exact absurd rfl hxyne
  · exact ⟨hxl, hyl⟩
  · exact ⟨hyl, hxl⟩
  · exact absurd rfl hxyne

lemma create_found {db : DB} {a b im : String} {c : Conversation}
    (h : findExisting db a b = some c) :
    create_conversation db a b im = (db, c) := by
  unfold create_conversation
  rw [h]

lemma create_none_proj {db : DB} {a b : String} (im : String)
    (h : findExisting db a b = none) :
    (create_conversation db a b im).1.participants =
      db.participants ++ [⟨db.nextConvId, b⟩, ⟨db.nextConvId, a⟩] ∧
    (create_conversation db a b im).1.conversations =
      db.conversations ++ [⟨db.nextConvId, some (assign CHAT_NAMES db.nextConvId)⟩] ∧
    (create_conversation db a b im).2 =
      ⟨db.nextConvId, some (assign CHAT_NAMES db.nextConvId)⟩ := by
  unfold create_conversation
  rw [h]
  exact ⟨rfl, rfl, rfl⟩

lemma membersOf_eq_of_ne {db db1 : DB} {cid N : Nat} {a b : String}
    (hparts : db1.participants = db.participants ++ [⟨N, b⟩, ⟨N, a⟩])
    (hne : cid ≠ N) :
    membersOf db1 cid = membersOf db cid := by
  unfold membersOf
  rw [hparts, List.filter_append]
  have hnil : List.filter (fun p => p.conversation_id == cid)
      [(⟨N, b⟩ : ConversationParticipant), ⟨N, a⟩] = [] := by
    simp [Ne.symm hne]
  rw [hnil, List.append_nil]

lemma membersOf_new {db db1 : DB} {N : Nat} {a b : String}
    (hparts : db1.participants = db.participants ++ [⟨N, b⟩, ⟨N, a⟩])
    (hwf : ∀ p ∈ db.participants, p.conversation_id < N) :
    membersOf db1 N = [b, a] := by
  unfold membersOf
  rw [hparts, List.filter_append]
  have hnil : List.filter (fun p => p.conversation_id == N) db.participants = [] := by
    refine List.filter_eq_nil_iff.mpr ?_
    intro p hp
    have := hwf p hp
    simp only [beq_iff_eq]
    omega
  rw [hnil]
  simp

lemma matchCount_new {db1 : DB} {N : Nat} {a b : String}
    (hmem : membersOf db1 N = [b, a]) (hne : a ≠ b) :
    matchCount db1 N a b = 2 := by
  unfold matchCount
  rw [hmem]
  have hfil : List.filter (fun u => u == a || u == b) [b, a] = [b, a] := by simp
  rw [hfil, List.dedup_eq_self.mpr (by simp [Ne.symm hne])]
  rfl

/-- C1 (amended): the find-or-create lookup returns an existing
conversation only if that conversation's participants include both `A`
and `B` (possibly as a strict superset, see the counterexample), the
lookup is independent of the argument order of `A` and `B`, a freshly
created conversation has participant set exactly `{A, B}`, and a
repeated call — in either argument order — returns the same
conversation and leaves the store unchanged. -/
theorem C1_find_or_create_dedup (db : DB) (a b im : String)
    (hwf : db.wf) (hne : a ≠ b) :
    (∀ c, findExisting db a b = some c →
      a ∈ membersOf db c.id ∧ b ∈ membersOf db c.id) ∧
    findExisting db a b = findExisting db b a ∧
    (findExisting db a b = none →
      membersOf (create_conversation db a b im).1
        (create_conversation db a b im).2.id = [b, a]) ∧
    create_conversation (create_conversation db a b im).1 a b im =
      create_conversation db a b im ∧
    create_conversation (create_conversation db a b im).1 b a im =
      create_conversation db a b im := by
  rcases hcase : findExisting db a b with _ | c
  · obtain ⟨hparts, hconvs, hconv2⟩ := create_none_proj im hcase
    have hmembN : membersOf (create_conversation db a b im).1 db.nextConvId =
        [b, a] := membersOf_new hparts hwf.2.1
    have hmc : matchCount (create_conversation db a b im).1 db.nextConvId a b = 2 :=
      matchCount_new hmembN hne
    have hfind1 : findExisting (create_conversation db a b im).1 a b =
        some ⟨db.nextConvId, some (assign CHAT_NAMES db.nextConvId)⟩ := by
      unfold findExisting
      rw [hconvs, List.find?_append]
      have hold : db.conversations.find?
          (fun c2 => matchCount (create_conversation db a b im).1 c2.id a b == 2) =
          none := by
        rw [List.find?_eq_none]
        intro c2 hc2 hpc
        have hlt : c2.id < db.nextConvId := hwf.1 c2 hc2
        have hmeq : matchCount (create_conversation db a b im).1 c2.id a b =
            matchCount db c2.id a b := by
          unfold matchCount
          rw [membersOf_eq_of_ne hparts (Nat.ne_of_lt hlt)]
        rw [hmeq] at hpc
        exact List.find?_eq_none.mp hcase c2 hc2 hpc
      rw [hold, Option.none_or]
      simp [List.find?_cons, hmc]
    refine ⟨fun c2 h => Option.noConfusion h, ?_, ?_, ?_, ?_⟩
    · rw [← hcase]
      exact findExisting_symm db a b
    · intro _
      rw [hconv2]
      exact hmembN
    · rw [create_found hfind1, ← hconv2]
    · have hfind1s : findExisting (create_conversation db a b im).1 b a =
          some ⟨db.nextConvId, some (assign CHAT_NAMES db.nextConvId)⟩ := by
        rw [← findExisting_symm]
        exact hfind1
      rw [create_found hfind1s, ← hconv2]
  · have e1 : create_conversation db a b im = (db, c) := create_found hcase
    have e1s : findExisting db b a = some c := by
      rw [← findExisting_symm]
      exact hcase
    refine ⟨?_, ?_, ?_, ?_, ?_⟩
    · intro c2 h
      injection h with h2
      subst h2
      exact findExisting_mem_both hcase
    · rw [← hcase]
      exact findExisting_symm db a b
    · intro hnone
      exact Option.noConfusion hnone
    · rw [e1]
      exact e1
    · rw [e1]
      exact create_found e1s

theorem C1_find_or_create_dedup_witness :
    create_conversation ((create_conversation ⟨[], [], [], 1, 1, 0⟩ "A" "B" "hi").1)
        "A" "B" "hi" =
      create_conversation ⟨[], [], [], 1, 1, 0⟩ "A" "B" "hi" :=
  (C1_find_or_create_dedup ⟨[], [], [], 1, 1, 0⟩ "A" "B" "hi"
    (by decide) (by decide)).2.2.2.1

lemma statusRank_le_two (s : String) : statusRank s ≤ 2 := by
  unfold statusRank
  split <;> omega

/-- C5 (amended): the invariant `isRead == true` iff `status == read`
is established for every message created by `send_message`, by the
websocket persist and by `create_conversation`'s optional initial
message, and it is preserved across the whole store by the bulk read
transition of `markReadInner`; status monotonicity along
`sent → delivered → read` is preserved by the same operations — send,
the live-channel persist and the initial message only append new
messages (entering the lifecycle at `sent`) and leave every existing
message untouched, and the bulk read transition leaves each message's
status unchanged or moves it forward to `read`, never regressing.
Only `update_message_status` (setStatus) is excluded: it is an
unconditional override that can break the invariant and regress the
status. -/
theorem C5_inv_mono_without_setStatus (db : DB) (hinv : invAll db) :
    (∀ cid sender content db2 m,
      send_message db cid sender content = .ok (db2, m) →
        invAll db2 ∧ msgInv m ∧ db2.messages = db.messages ++ [m] ∧
        m.status = "sent" ∧ m.is_read = false) ∧
    (∀ cid uid db2 n, markReadInner db cid uid = .ok (db2, n) →
      invAll db2 ∧ db2.messages.length = db.messages.length ∧
      (∀ i (h1 : i < db.messages.length) (h2 : i < db2.messages.length),
        statusRank (db.messages.get ⟨i, h1⟩).status ≤
          statusRank (db2.messages.get ⟨i, h2⟩).status ∧
        ((db2.messages.get ⟨i, h2⟩).status = (db.messages.get ⟨i, h1⟩).status ∨
         (db2.messages.get ⟨i, h2⟩).status = "read"))) ∧
    (∀ room content sender,
      invAll (websocket_handle db room content sender).1 ∧
      ((websocket_handle db room content sender).1.messages = db.messages ∨
       ∃ m, (websocket_handle db room content sender).1.messages =
          db.messages ++ [m] ∧ m.status = "sent" ∧ m.is_read = false)) ∧
    (∀ a b im,
      invAll (create_conversation db a b im).1 ∧
      ((create_conversation db a b im).1.messages = db.messages ∨
       ∃ m, (create_conversation db a b im).1.messages = db.messages ++ [m] ∧
         m.status = "sent" ∧ m.is_read = false)) := by
  refine ⟨?_, ?_, ?_, ?_⟩
  · intro cid sender content db2 m h
    unfold send_message at h
    split at h
    · simp at h
    · simp only [Result.ok.injEq, Prod.mk.injEq] at h
      obtain ⟨h1, h2⟩ := h
      subst h1
      subst h2
      refine ⟨?_, by simp [msgInv], rfl, rfl, rfl⟩
      intro m2 hm2
      rcases List.mem_append.mp hm2 with h3 | h3
      · exact hinv m2 h3
      · simp only [List.mem_singleton] at h3
        subst h3
        simp [msgInv]
  · intro cid uid db2 n h
    unfold markReadInner at h
    split at h
    · simp at h
    · split at h
      · simp at h
      · simp only [Result.ok.injEq, Prod.mk.injEq] at h
        obtain ⟨h1, _⟩ := h
        subst h1
        refine ⟨?_, by simp, ?_⟩
        · intro m2 hm2
          obtain ⟨m0, hm0, rfl⟩ := List.mem_map.mp hm2
          by_cases hq : readQual cid uid m0 = true
          · rw [if_pos hq]
            simp [msgInv]
          · rw [if_neg hq]
            exact hinv m0 hm0
        · intro i h1 h2
          have hg : (db.messages.map (fun m =>
              if readQual cid uid m then { m with is_read := true, status := "read" }
              else m)).get ⟨i, h2⟩ =
              if readQual cid uid (db.messages.get ⟨i, h1⟩) then
                { db.messages.get ⟨i, h1⟩ with is_read := true, status := "read" }
              else db.messages.get ⟨i, h1⟩ := by
            simp [List.get_eq_getElem, List.getElem_map]
          rw [hg]
          by_cases hq : readQual cid uid (db.messages.get ⟨i, h1⟩) = true
          · rw [if_pos hq]
            exact ⟨statusRank_le_two _, Or.inr rfl⟩
          · rw [if_neg hq]
            exact ⟨Nat.le_refl _, Or.inl rfl⟩
  · intro room content sender
    unfold websocket_handle
    split
    · exact ⟨hinv, Or.inl rfl⟩
    · refine ⟨?_, Or.inr ⟨_, rfl, rfl, rfl⟩⟩
      intro m2 hm2
      rcases List.mem_append.mp hm2 with h3 | h3
      · exact hinv m2 h3
      · simp only [List.mem_singleton] at h3
        subst h3
        simp [msgInv]
  · intro a b im
    unfold create_conversation
    split
    · exact ⟨hinv, Or.inl rfl⟩
    · dsimp only
      by_cases him : im ≠ ""
      · rw [if_pos him]
        refine ⟨?_, Or.inr ⟨_, rfl, rfl, rfl⟩⟩
        intro m2 hm2
        rcases List.mem_append.mp hm2 with h3 | h3
        · exact hinv m2 h3
        · simp only [List.mem_singleton] at h3
          subst h3
          simp [msgInv]
      · rw [if_neg him]
        exact ⟨hinv, Or.inl rfl⟩

theorem C5_inv_mono_without_setStatus_witness :
    invAll (websocket_handle ⟨[⟨1, none⟩], [], [], 2, 1, 0⟩ 1
      (some "x") (some "A")).1 :=
  ((C5_inv_mono_without_setStatus ⟨[⟨1, none⟩], [], [], 2, 1, 0⟩
    (by decide)).2.2.1 1 (some "x") (some "A")).1

/-- C3 (code bug): the bulk read transition itself behaves exactly as
claimed — at the concrete store below, `markReadInner` transitions the
three unread messages from A to `status="read", isRead=true`, leaves
B's own message untouched, and computes the count 3 — but the endpoint
answers the committed positive update with a 500 Internal error
instead of returning the count: the read-receipt broadcast is invoked
through `anyio.from_thread.run` inside an `async def` handler, which
raises `RuntimeError` into the blanket `except` after the commit.  The
count reaches the caller only when it is 0, as in the immediately
repeated call of the third conjunct, which returns 0 and changes
nothing. -/
theorem C3_markRead_count_lost_to_internal :
    markReadInner
        ⟨[⟨7, none⟩], [⟨7, "A"⟩, ⟨7, "B"⟩],
          [⟨1, 7, "A", "m1", 0, "sent", false⟩, ⟨2, 7, "A", "m2", 1, "sent", false⟩,
           ⟨3, 7, "A", "m3", 2, "sent", false⟩, ⟨4, 7, "B", "m4", 3, "sent", false⟩],
          8, 5, 9⟩ 7 "B" =
      .ok (⟨[⟨7, none⟩], [⟨7, "A"⟩, ⟨7, "B"⟩],
          [⟨1, 7, "A", "m1", 0, "read", true⟩, ⟨2, 7, "A", "m2", 1, "read", true⟩,
           ⟨3, 7, "A", "m3", 2, "read", true⟩, ⟨4, 7, "B", "m4", 3, "sent", false⟩],
          8, 5, 9⟩, 3) ∧
    mark_conversation_read
        ⟨[⟨7, none⟩], [⟨7, "A"⟩, ⟨7, "B"⟩],
          [⟨1, 7, "A", "m1", 0, "sent", false⟩, ⟨2, 7, "A", "m2", 1, "sent", false⟩,
           ⟨3, 7, "A", "m3", 2, "sent", false⟩, ⟨4, 7, "B", "m4", 3, "sent", false⟩],
          8, 5, 9⟩ 7 "B" =
      (⟨[⟨7, none⟩], [⟨7, "A"⟩, ⟨7, "B"⟩],
          [⟨1, 7, "A", "m1", 0, "read", true⟩, ⟨2, 7, "A", "m2", 1, "read", true⟩,
           ⟨3, 7, "A", "m3", 2, "read", true⟩, ⟨4, 7, "B", "m4", 3, "sent", false⟩],
          8, 5, 9⟩, .err .internal) ∧
    mark_conversation_read
        ⟨[⟨7, none⟩], [⟨7, "A"⟩, ⟨7, "B"⟩],
          [⟨1, 7, "A", "m1", 0, "read", true⟩, ⟨2, 7, "A", "m2", 1, "read", true⟩,
           ⟨3, 7, "A", "m3", 2, "read", true⟩, ⟨4, 7, "B", "m4", 3, "sent", false⟩],
          8, 5, 9⟩ 7 "B" =
      (⟨[⟨7, none⟩], [⟨7, "A"⟩, ⟨7, "B"⟩],
          [⟨1, 7, "A", "m1", 0, "read", true⟩, ⟨2, 7, "A", "m2", 1, "read", true⟩,
           ⟨3, 7, "A", "m3", 2, "read", true⟩, ⟨4, 7, "B", "m4", 3, "sent", false⟩],
          8, 5, 9⟩, .ok 0) := by decide

theorem C10_missing_conversation_forbidden_witness :
    send_message ⟨[⟨1, none⟩], [⟨1, "A"⟩], [], 2, 1, 0⟩ 99 "A" "hi" =
      .err .forbidden :=
  C10_missing_conversation_forbidden ⟨[⟨1, none⟩], [⟨1, "A"⟩], [], 2, 1, 0⟩
    99 "A" "hi" (by decide) (by decide)

end MessagingService
